import Mathlib

/-!
Verification of the peer-configuration synthesis pipeline in `src/main.go`
(wireframe / pathvector BGP config generator).

The executable code in `main.go` (after config loading) does the following:
  * when not in dry-run mode: creates `<BirdDirectory>/bird.conf` with
    `os.Create` (which truncates an existing file), renders the global
    template directly into that file, then globs `<BirdSocket>/AS*.conf`
    and removes every match (lines 81-110);
  * in dry-run mode it skips all of the above (lines 108-110);
  * iterates over `globalConfig.Peers`, setting each peer's `ProtocolName`
    from the peer name: if the first character of the name is a digit, the
    literal prefix `PEER_` is prepended to the sanitized name, otherwise the
    sanitized name is used directly (lines 113-120).  The index expression
    `peerName[0]` has no emptiness guard and panics on an empty name.
  * everything else in the per-peer loop (PeeringDB enrichment, AS-SET
    normalization, the empty-AS-SET fatal check, per-peer file writing,
    VRRP/UI output and BIRD reconfiguration, lines 124-221) is present only
    as comments and never executes.

The helper `sanitize` is not among the provided sources (it lives in another
file of the repository); it is modelled from the spec below.  Template
rendering is an external collaborator per the spec and is modelled as an
oracle outcome passed to the run.
-/

namespace Wireframe

/-- Character class of the target identifier grammar (BIRD protocol names):
letters, digits and underscore. -/
def isIdentChar (c : Char) : Bool := c.isAlphanum || c == '_'

/-- Modelled from the spec: the helper `sanitize` called at `main.go:117,119`
is not among the provided source files.  Spec 4.1: "Sanitization maps/strips
any character not valid in the target identifier grammar"; with the data-model
invariant that the result is always a valid identifier, each invalid character
is mapped to `_` (position-preserving map). -/
def sanitizeChar (c : Char) : Char := if isIdentChar c then c else '_'

/-- Modelled from the spec: `sanitize` maps every character not valid in the
identifier grammar to `_`. -/
def sanitize (s : String) : String := ⟨s.data.map sanitizeChar⟩

/-- The digit test of `main.go:115`: `unicode.IsDigit(rune(peerName[0]))`.
`peerName[0]` reads the first byte; it is a decimal digit exactly when the
first character of the string is an ASCII digit (a multi-byte character has a
lead byte ≥ 0xC2, never a digit).  The result is `none` when the name is
empty, where the Go expression panics with an index-out-of-range error. -/
def classifyPeerName (peerName : String) : Option Bool :=
  match peerName.data with
  | [] => none
  | c :: _ => some c.isDigit

/-- The Sanitizer contract of spec 4.1, `normalize(name) -> token`: prefix
`PEER_` when the first character is a digit (the live branch at
`main.go:115-120`), then sanitize.  On the empty string there is no first
character, so no prefix is applied. -/
def normalize (name : String) : String :=
  if classifyPeerName name = some true then "PEER_" ++ sanitize name
  else sanitize name

/-- Peer record, from the fields of the `peer` struct used in `main.go`
(`ProtocolName`, `Asn`, `Type`, `AsSet`, `ImportLimit4`, `ImportLimit6`,
`NoPeeringDB`, `QueryTime`, `PrefixSet4`, `PrefixSet6`).  The Go field `Type`
is rendered `SessionType` because `Type` is reserved in Lean. -/
structure Peer where
  ProtocolName : String
  Asn : Nat
  SessionType : String
  AsSet : String
  ImportLimit4 : Nat
  ImportLimit6 : Nat
  NoPeeringDB : Bool
  QueryTime : String
  PrefixSet4 : List String
  PrefixSet6 : List String
  deriving DecidableEq, Repr

/-- The body of the per-peer loop at `main.go:113-222` as it executes: set
`ProtocolName` from the peer name (`PEER_` prefix when the first character is
a digit); everything else in the loop is commented out.  `none` models the
panic of `peerName[0]` on an empty name. -/
def setProtocolName (peerName : String) (p : Peer) : Option Peer :=
  match classifyPeerName peerName with
  | none => none
  | some true => some { p with ProtocolName := "PEER_" ++ sanitize peerName }
  | some false => some { p with ProtocolName := sanitize peerName }

/-- A string starts with a decimal digit. -/
def startsWithDigit (s : String) : Bool :=
  match s.data with
  | [] => false
  | c :: _ => c.isDigit

/-- Valid identifier: every character in the identifier grammar and no
leading digit. -/
def validIdent (s : String) : Bool :=
  s.data.all isIdentChar && !(startsWithDigit s)

-- Filesystem model: an association list from absolute path to file contents.

/-- Model of the directory state seen by the run: a finite map from absolute
path to byte contents, as an association list. -/
abbrev FS : Type := List (String × String)

/-- String equality through the character list (used by the map model). -/
def strEq (a b : String) : Bool := a.data == b.data

/-- Look up a path in the filesystem model. -/
def fsGet : FS → String → Option String
  | [], _ => none
  | (q, c) :: rest, p => if strEq q p then some c else fsGet rest p

/-- Drop every entry for path `p`. -/
def fsErase : FS → String → FS
  | [], _ => []
  | (k, v) :: rest, p => if strEq k p then fsErase rest p else (k, v) :: fsErase rest p

/-- Write (create or truncate-and-write) path `p` with contents `c`. -/
def fsSet (fs : FS) (p c : String) : FS := (p, c) :: fsErase fs p

/-- Go's `path.Join(dir, name)` for a clean directory path and a simple
file name. -/
def pathJoin (dir name : String) : String := dir ++ "/" ++ name

/-- First list is an initial segment of the second. -/
def leadsWith : List Char → List Char → Bool
  | [], _ => true
  | _ :: _, [] => false
  | p :: ps, c :: cs => p == c && leadsWith ps cs

/-- First list is a final segment of the second. -/
def trailsWith (pat l : List Char) : Bool := leadsWith pat.reverse l.reverse

/-- Whether path `p` matches `filepath.Glob(path.Join(dir, "AS*.conf"))`
(`main.go:99`): a direct child of `dir` whose name starts with `AS`, ends
with `.conf`, and contains no separator (`*` does not cross `/`). -/
def globMatch (dir p : String) : Bool :=
  let d := dir.data ++ ['/']
  leadsWith d p.data &&
    (let rest := p.data.drop d.length
     leadsWith ['A', 'S'] rest && trailsWith ['.', 'c', 'o', 'n', 'f'] rest &&
       !(rest.contains '/'))

/-- Remove every file matching the `AS*.conf` glob under `dir`
(`main.go:103-107`). -/
def fsRemoveGlob : FS → String → FS
  | [], _ => []
  | (k, v) :: rest, dir =>
    if globMatch dir k then fsRemoveGlob rest dir else (k, v) :: fsRemoveGlob rest dir

/-- Outcome of executing a template against a model (the template engine is
an external collaborator per the spec).  `ExecuteTemplate` writes into the
destination incrementally, so a failing execution has already emitted the
bytes produced before the error. -/
inductive RenderOutcome where
  | ok (out : String)
  | fail (written : String)

/-- How the embedded run can terminate with a nonzero status (`log.Fatal`):
a failing global template execution (`main.go:93-95`), or the
index-out-of-range panic on an empty peer name (`main.go:115`). -/
inductive RunError where
  | renderFatal
  | emptyPeerName
  deriving DecidableEq

/-- Fields of the global config used by `main` (`main.go:84,99,113`). -/
structure GlobalConfig where
  BirdDirectory : String
  BirdSocket : String
  Peers : List (String × Peer)

/-- The per-peer loop of `main.go:113-222` over all peers: the executable
body only sets `ProtocolName`.  `none` models the panic on an empty name. -/
def processPeers : List (String × Peer) → Option (List (String × Peer))
  | [] => some []
  | (n, p) :: rest =>
    match setProtocolName n p with
    | none => none
    | some q =>
      match processPeers rest with
      | none => none
      | some rest2 => some ((n, q) :: rest2)

/-- The executable behavior of `main` after config loading
(`main.go:81-222`), as a function of the dry-run flag, the outcome of the
global template execution, the loaded configuration and the starting
directory state.  Not in dry-run mode: `os.Create` truncates
`<BirdDirectory>/bird.conf`, the global template is rendered directly into
it (a failure aborts with the partial bytes on disk), every
`<BirdSocket>/AS*.conf` match is removed, and the per-peer loop runs.  In
dry-run mode only the per-peer loop runs.  An error result carries the
directory state at the fatal exit. -/
def runMain (dryRun : Bool) (render : RenderOutcome) (cfg : GlobalConfig) (fs : FS) :
    Except (RunError × FS) (FS × List (String × Peer)) :=
  if dryRun then
    match processPeers cfg.Peers with
    | none => .error (.emptyPeerName, fs)
    | some ps => .ok (fs, ps)
  else
    let globalPath := pathJoin cfg.BirdDirectory "bird.conf"
    let fs1 := fsSet fs globalPath ""
    match render with
    | .fail written => .error (.renderFatal, fsSet fs1 globalPath written)
    | .ok out =>
      let fs2 := fsSet fs1 globalPath out
      let fs3 := fsRemoveGlob fs2 cfg.BirdSocket
      match processPeers cfg.Peers with
      | none => .error (.emptyPeerName, fs3)
      | some ps => .ok (fs3, ps)

/-- Directory state after the run, successful or fatal. -/
def resultFS : Except (RunError × FS) (FS × List (String × Peer)) → FS
  | .ok (fs, _) => fs
  | .error (_, fs) => fs

/-- Whether the run terminated with exit status 0. -/
def runSucceeds : Except (RunError × FS) (FS × List (String × Peer)) → Bool
  | .ok _ => true
  | .error _ => false

/-- The in-memory peer records after a successful run. -/
def resultPeers : Except (RunError × FS) (FS × List (String × Peer)) →
    Option (List (String × Peer))
  | .ok (_, ps) => some ps
  | .error _ => none

/-- The fatal cause of an unsuccessful run. -/
def runError : Except (RunError × FS) (FS × List (String × Peer)) → Option RunError
  | .ok _ => none
  | .error (e, _) => some e

-- Concrete inputs used by the counterexample and witness theorems.

/-- A peer of session type `peer` with no AS-SET and unset (zero) import
limits, ASN 65000. -/
def peerP : Peer :=
  { ProtocolName := "", Asn := 65000, SessionType := "peer", AsSet := "",
    ImportLimit4 := 0, ImportLimit6 := 0, NoPeeringDB := false, QueryTime := "",
    PrefixSet4 := [], PrefixSet6 := [] }

/-- A configuration declaring the single peer `P`. -/
def cfgP : GlobalConfig :=
  { BirdDirectory := "/etc/bird", BirdSocket := "/run/bird", Peers := [("P", peerP)] }

/-- A configuration whose peer map contains the empty string as a key. -/
def cfgEmptyName : GlobalConfig :=
  { BirdDirectory := "/etc/bird", BirdSocket := "/run/bird", Peers := [("", peerP)] }

/-- A peer with a manual AS-SET but unset import limits. -/
def peerUplink : Peer :=
  { ProtocolName := "", Asn := 64500, SessionType := "upstream", AsSet := "AS-X",
    ImportLimit4 := 0, ImportLimit6 := 0, NoPeeringDB := false, QueryTime := "",
    PrefixSet4 := [], PrefixSet6 := [] }

/-- A configuration declaring the single peer `uplink`. -/
def cfgUplink : GlobalConfig :=
  { BirdDirectory := "/etc/bird", BirdSocket := "/run/bird", Peers := [("uplink", peerUplink)] }

/-- A directory that already holds a previously generated `bird.conf`. -/
def fsOld : FS := [("/etc/bird/bird.conf", "old")]

-- Basic lemmas about the sanitizer

theorem data_append (a b : String) : (a ++ b).data = a.data ++ b.data := by
  cases a; cases b; rfl

theorem digit_ident (c : Char) (h : c.isDigit = true) : isIdentChar c = true := by
  unfold isIdentChar
  rw [Bool.or_eq_true]
  left
  simp [Char.isAlphanum, h]

theorem underscore_ident : isIdentChar '_' = true := by decide

theorem sanitizeChar_idem (c : Char) : sanitizeChar (sanitizeChar c) = sanitizeChar c := by
  unfold sanitizeChar
  by_cases h : isIdentChar c = true
  · simp [h]
  · rw [if_neg h, if_pos underscore_ident]

theorem sanitize_data (s : String) : (sanitize s).data = s.data.map sanitizeChar := rfl

theorem sanitize_idem (s : String) : sanitize (sanitize s) = sanitize s := by
  apply String.ext
  show List.map sanitizeChar (List.map sanitizeChar s.data) = List.map sanitizeChar s.data
  rw [List.map_map]
  congr 1
  funext c
  exact sanitizeChar_idem c

theorem sanitize_append (a b : String) : sanitize (a ++ b) = sanitize a ++ sanitize b := by
  apply String.ext
  rw [sanitize_data, data_append, data_append, sanitize_data, sanitize_data, List.map_append]

theorem sanitizeChar_isDigit (c : Char) : (sanitizeChar c).isDigit = c.isDigit := by
  unfold sanitizeChar
  by_cases h : isIdentChar c = true
  · rw [if_pos h]
  · have hc : c.isDigit = false := by
      cases hd : c.isDigit
      · rfl
      · exact absurd (digit_ident c hd) h
    rw [if_neg h, hc]
    decide

theorem sanitizeChar_ident (c : Char) : isIdentChar (sanitizeChar c) = true := by
  unfold sanitizeChar
  by_cases h : isIdentChar c = true
  · rw [if_pos h]; exact h
  · rw [if_neg h]; exact underscore_ident

theorem classify_sanitize (s : String) :
    classifyPeerName (sanitize s) = classifyPeerName s := by
  unfold classifyPeerName
  rw [sanitize_data]
  cases s.data with
  | nil => rfl
  | cons c cs => simp [sanitizeChar_isDigit]

theorem sanitize_PEER : sanitize "PEER_" = "PEER_" := by decide

theorem data_PEER : ("PEER_" : String).data = ['P', 'E', 'E', 'R', '_'] := by decide

theorem classify_prefixed (s : String) :
    classifyPeerName ("PEER_" ++ s) = some false := by
  unfold classifyPeerName
  rw [data_append, data_PEER]
  simp

theorem normalize_idem_aux (x : String) : normalize (normalize x) = normalize x := by
  unfold normalize
  by_cases h : classifyPeerName x = some true
  · rw [if_pos h, if_neg (by rw [classify_prefixed]; simp),
      sanitize_append, sanitize_PEER, sanitize_idem]
  · rw [if_neg h, if_neg (by rw [classify_sanitize]; exact h), sanitize_idem]

theorem sanitize_all_ident (s : String) : (sanitize s).data.all isIdentChar = true := by
  rw [sanitize_data]
  rw [List.all_eq_true]
  intro c hc
  rw [List.mem_map] at hc
  obtain ⟨a, _, ha⟩ := hc
  rw [← ha]
  exact sanitizeChar_ident a

theorem startsWithDigit_sanitize (s : String) :
    startsWithDigit (sanitize s) = startsWithDigit s := by
  unfold startsWithDigit
  rw [sanitize_data]
  cases s.data with
  | nil => rfl
  | cons c cs =>
    show (sanitizeChar c).isDigit = c.isDigit
    exact sanitizeChar_isDigit c

theorem classify_eq_some_true (s : String) :
    classifyPeerName s = some true ↔ startsWithDigit s = true := by
  unfold classifyPeerName startsWithDigit
  cases s.data with
  | nil => simp
  | cons c cs => simp

theorem normalize_valid (name : String) : validIdent (normalize name) = true := by
  unfold validIdent normalize
  by_cases h : classifyPeerName name = some true
  · rw [if_pos h, Bool.and_eq_true]
    constructor
    · rw [data_append, List.all_append, Bool.and_eq_true]
      exact ⟨by decide, sanitize_all_ident name⟩
    · unfold startsWithDigit
      rw [data_append, data_PEER]
      show (!('P'.isDigit)) = true
      decide
  · rw [if_neg h, Bool.and_eq_true]
    refine ⟨sanitize_all_ident name, ?_⟩
    rw [startsWithDigit_sanitize]
    cases hs : startsWithDigit name
    · rfl
    · exact absurd ((classify_eq_some_true name).mpr hs) h

theorem setProtocolName_eq (n : String) (p q : Peer) (h : setProtocolName n p = some q) :
    q.ProtocolName = normalize n := by
  unfold setProtocolName at h
  cases hc : classifyPeerName n with
  | none => rw [hc] at h; simp at h
  | some b =>
    rw [hc] at h
    cases b with
    | true =>
      simp at h
      rw [← h]
      unfold normalize
      rw [if_pos hc]
    | false =>
      simp at h
      rw [← h]
      unfold normalize
      rw [if_neg (by rw [hc]; simp)]

-- Lemmas about the filesystem model

theorem strEq_iff (a b : String) : strEq a b = true ↔ a = b := by
  unfold strEq
  simp only [beq_iff_eq]
  exact ⟨String.ext, congrArg String.data⟩

theorem strEq_self (a : String) : strEq a a = true := (strEq_iff a a).mpr rfl

theorem strEq_ne {a b : String} (h : a ≠ b) : strEq a b = false := by
  cases he : strEq a b
  · rfl
  · exact absurd ((strEq_iff a b).mp he) h

theorem fsGet_cons_ne {k p : String} (v : String) (rest : FS) (hkp : strEq k p = false) :
    fsGet ((k, v) :: rest) p = fsGet rest p := by
  show (if strEq k p then some v else fsGet rest p) = fsGet rest p
  rw [if_neg (by simp [hkp])]

theorem fsGet_erase_ne (fs : FS) {p q : String} (h : q ≠ p) :
    fsGet (fsErase fs q) p = fsGet fs p := by
  induction fs with
  | nil => rfl
  | cons e rest ih =>
    obtain ⟨k, v⟩ := e
    show fsGet (if strEq k q then fsErase rest q else (k, v) :: fsErase rest q) p
        = fsGet ((k, v) :: rest) p
    by_cases hk : strEq k q = true
    · have hkp : strEq k p = false := by
        rw [(strEq_iff k q).mp hk]
        exact strEq_ne h
      rw [if_pos hk, ih, fsGet_cons_ne v rest hkp]
    · rw [if_neg hk]
      show (if strEq k p then some v else fsGet (fsErase rest q) p)
          = (if strEq k p then some v else fsGet rest p)
      rw [ih]

theorem fsGet_set_self (fs : FS) (p c : String) : fsGet (fsSet fs p c) p = some c := by
  unfold fsSet
  show (if strEq p p then some c else fsGet (fsErase fs p) p) = some c
  rw [if_pos (strEq_self p)]

theorem fsGet_set_ne (fs : FS) (q c : String) {p : String} (h : p ≠ q) :
    fsGet (fsSet fs q c) p = fsGet fs p := by
  unfold fsSet
  show (if strEq q p then some c else fsGet (fsErase fs q) p) = fsGet fs p
  rw [if_neg (by rw [strEq_ne (Ne.symm h)]; simp)]
  exact fsGet_erase_ne fs (Ne.symm h)

theorem fsGet_removeGlob (fs : FS) (dir : String) {p : String}
    (h : globMatch dir p = false) : fsGet (fsRemoveGlob fs dir) p = fsGet fs p := by
  induction fs with
  | nil => rfl
  | cons e rest ih =>
    obtain ⟨k, v⟩ := e
    show fsGet (if globMatch dir k then fsRemoveGlob rest dir
        else (k, v) :: fsRemoveGlob rest dir) p = fsGet ((k, v) :: rest) p
    by_cases hk : globMatch dir k = true
    · have hkp : strEq k p = false := by
        cases hs : strEq k p
        · rfl
        · rw [(strEq_iff k p).mp hs] at hk
          rw [h] at hk
          simp at hk
      rw [if_pos hk, ih, fsGet_cons_ne v rest hkp]
    · rw [if_neg hk]
      show (if strEq k p then some v else fsGet (fsRemoveGlob rest dir) p)
          = (if strEq k p then some v else fsGet rest p)
      rw [ih]

-- Claim theorems

/-- C1 (the claim is falsified by the executable code): a successful
non-dry-run invocation on a configuration declaring the single peer `P`
(ASN 65000), starting from an empty output directory, terminates with
status 0, yet afterwards the output directory holds only the global
`bird.conf` and no generated file for peer `P`: the per-peer file writing
of `main.go:180-197` is commented out, and the stale-file removal of
`main.go:98-107` globs under `BirdSocket` instead of the output
directory. -/
theorem run_produces_no_peer_file :
    runSucceeds (runMain false (.ok "G") cfgP []) = true ∧
      resultFS (runMain false (.ok "G") cfgP []) = [("/etc/bird/bird.conf", "G")] ∧
      fsGet (resultFS (runMain false (.ok "G") cfgP [])) "/etc/bird/AS65000_P.conf" = none := by
  decide

/-- C2: a dry-run invocation performs no filesystem mutation — for every
render outcome, configuration and starting directory state, the directory
(listing and contents) after the run, successful or not, is the one before
— while the per-peer generation logic still executes (the run outcome is
exactly the outcome of processing every peer). -/
theorem dry_run_preserves_filesystem (render : RenderOutcome) (cfg : GlobalConfig) (fs : FS) :
    resultFS (runMain true render cfg fs) = fs ∧
      runSucceeds (runMain true render cfg fs) = (processPeers cfg.Peers).isSome := by
  cases hp : processPeers cfg.Peers with
  | none => simp [runMain, hp, resultFS, runSucceeds]
  | some ps => simp [runMain, hp, resultFS, runSucceeds]

/-- C3 (the claim is falsified by the executable code): when the global
template execution fails after emitting the partial output `"par"`, the run
aborts fatally, but `bird.conf` — previously holding `"old"` — remains on
disk holding exactly the partial bytes: neither absent nor in its prior
state.  `main.go:84-95` renders straight into the file opened by
`os.Create` (which truncates), with no scratch buffer or atomic swap. -/
theorem render_failure_leaves_partial_file :
    runSucceeds (runMain false (.fail "par") cfgP fsOld) = false ∧
      fsGet fsOld "/etc/bird/bird.conf" = some "old" ∧
      fsGet (resultFS (runMain false (.fail "par") cfgP fsOld)) "/etc/bird/bird.conf"
        = some "par" := by
  decide

/-- C4 (the claim is falsified by the executable code): a non-dry-run
invocation whose sole peer has session type `peer` and an empty AS-SET
completes with status 0, and the peer record afterwards still has an empty
AS-SET: the fatal empty-AS-SET check of `main.go:172-175` is commented out
and never runs, so no configuration is ever rejected on this ground. -/
theorem empty_as_set_is_not_fatal :
    peerP.SessionType = "peer" ∧ peerP.AsSet = "" ∧
      runSucceeds (runMain false (.ok "G") cfgP []) = true ∧
      resultPeers (runMain false (.ok "G") cfgP [])
        = some [("P", { peerP with ProtocolName := "P" })] := by
  decide

/-- C5 (the claim is falsified by the executable code): a peer not opted out
of enrichment (`NoPeeringDB = false`) whose IPv4 and IPv6 import limits are
unset (zero) still has them at zero after a full successful run — a registry
value such as 500 is never copied in, because the PeeringDB enrichment of
`main.go:124-137` is commented out and the executable performs no registry
query at all. -/
theorem import_limits_never_filled :
    peerUplink.NoPeeringDB = false ∧ peerUplink.ImportLimit4 = 0 ∧
      peerUplink.ImportLimit6 = 0 ∧
      resultPeers (runMain false (.ok "G") cfgUplink [])
        = some [("uplink", { peerUplink with ProtocolName := "uplink" })] := by
  decide

/-- C6 (the claim is falsified by the executable code): a peer with no
manually configured AS-SET (empty string) and ASN 65000 still has an empty
AS-SET after a full successful run — no registry value (such as
`"RIPE::AS-FOO"` or `"AS-FOO AS-BAR"`) is normalized in, and no `"AS65000"`
fallback is synthesized, because the AS-SET resolution of `main.go:139-163`
is commented out and never executes. -/
theorem as_set_never_resolved :
    peerP.AsSet = "" ∧ peerP.Asn = 65000 ∧
      (resultPeers (runMain false (.ok "G") cfgP [])).map
          (fun ps => ps.map (fun e => e.2.AsSet))
        = some [""] := by
  decide

/-- C7: for every peer record the live loop processes, a peer name whose
first character is a digit receives `ProtocolName = "PEER_" ++ sanitize
name`, and every processed name yields a `ProtocolName` that is a valid
identifier never beginning with a digit; concretely
`normalize "100foo" = "PEER_100foo"`. -/
theorem protocol_name_digit_and_valid :
    (∀ (name : String) (p q : Peer), setProtocolName name p = some q →
        (startsWithDigit name = true → q.ProtocolName = "PEER_" ++ sanitize name) ∧
          validIdent q.ProtocolName = true) ∧
      normalize "100foo" = "PEER_100foo" := by
  constructor
  · intro name p q h
    have hpn := setProtocolName_eq name p q h
    constructor
    · intro hd
      rw [hpn]
      unfold normalize
      rw [if_pos ((classify_eq_some_true name).mpr hd)]
    · rw [hpn]
      exact normalize_valid name
  · decide

/-- Witness for C7 at the concrete input `"100foo"`. -/
theorem protocol_name_digit_and_valid_witness :
    startsWithDigit "100foo" = true ∧
      ({ peerP with ProtocolName := "PEER_100foo" } : Peer).ProtocolName
        = "PEER_" ++ sanitize "100foo" ∧
      validIdent ({ peerP with ProtocolName := "PEER_100foo" } : Peer).ProtocolName = true :=
  ⟨by decide,
   (protocol_name_digit_and_valid.1 "100foo" peerP
       { peerP with ProtocolName := "PEER_100foo" } (by decide)).1 (by decide),
   (protocol_name_digit_and_valid.1 "100foo" peerP
       { peerP with ProtocolName := "PEER_100foo" } (by decide)).2⟩

/-- C8: the Sanitizer contract is a deterministic function and is
idempotent on every input string, including names that receive the digit
prefix: `normalize (normalize x) = normalize x`. -/
theorem normalize_idempotent (x : String) : normalize (normalize x) = normalize x :=
  normalize_idem_aux x

/-- C9: the name-classification step is a partial function whose error
branch is reachable at the public input interface: `peerName[0]` at
`main.go:115` has no emptiness guard, so a configuration whose peer map
contains the empty string as a key reaches the index-out-of-range panic
(modelled as `none` / `emptyPeerName`), in dry-run and non-dry-run mode
alike. -/
theorem empty_peer_name_reaches_error :
    classifyPeerName "" = none ∧
      runError (runMain true (.ok "G") cfgEmptyName []) = some .emptyPeerName ∧
      runError (runMain false (.ok "G") cfgEmptyName []) = some .emptyPeerName := by
  decide

/-- C10: the executable per-peer pipeline mutates only `ProtocolName` —
every other field of a processed peer record equals the loaded one — and the
run writes no path other than `<BirdDirectory>/bird.conf` and the
`<BirdSocket>/AS*.conf` glob matches, so the input declaration file (or any
other unrelated path) is never written back. -/
theorem pipeline_mutates_only_protocol_name :
    (∀ (name : String) (p q : Peer), setProtocolName name p = some q →
        q.Asn = p.Asn ∧ q.SessionType = p.SessionType ∧ q.AsSet = p.AsSet ∧
          q.ImportLimit4 = p.ImportLimit4 ∧ q.ImportLimit6 = p.ImportLimit6 ∧
          q.NoPeeringDB = p.NoPeeringDB ∧ q.QueryTime = p.QueryTime ∧
          q.PrefixSet4 = p.PrefixSet4 ∧ q.PrefixSet6 = p.PrefixSet6) ∧
      (∀ (dryRun : Bool) (render : RenderOutcome) (cfg : GlobalConfig) (fs : FS) (p : String),
        p ≠ pathJoin cfg.BirdDirectory "bird.conf" →
          globMatch cfg.BirdSocket p = false →
            fsGet (resultFS (runMain dryRun render cfg fs)) p = fsGet fs p) := by
  constructor
  · intro name p q h
    unfold setProtocolName at h
    cases hc : classifyPeerName name with
    | none => rw [hc] at h; simp at h
    | some b =>
      rw [hc] at h
      cases b with
      | true =>
        simp at h
        rw [← h]
        exact ⟨rfl, rfl, rfl, rfl, rfl, rfl, rfl, rfl, rfl⟩
      | false =>
        simp at h
        rw [← h]
        exact ⟨rfl, rfl, rfl, rfl, rfl, rfl, rfl, rfl, rfl⟩
  · intro dryRun render cfg fs p hpath hglob
    cases dryRun with
    | true =>
      cases hp : processPeers cfg.Peers with
      | none => simp [runMain, hp, resultFS]
      | some ps => simp [runMain, hp, resultFS]
    | false =>
      cases render with
      | fail written =>
        simp [runMain, resultFS]
        rw [fsGet_set_ne _ _ _ hpath, fsGet_set_ne _ _ _ hpath]
      | ok out =>
        cases hp : processPeers cfg.Peers with
        | none =>
          simp [runMain, hp, resultFS]
          rw [fsGet_removeGlob _ _ hglob, fsGet_set_ne _ _ _ hpath, fsGet_set_ne _ _ _ hpath]
        | some ps =>
          simp [runMain, hp, resultFS]
          rw [fsGet_removeGlob _ _ hglob, fsGet_set_ne _ _ _ hpath, fsGet_set_ne _ _ _ hpath]

/-- Witness for C10: the processed peer `P` keeps every field but
`ProtocolName`, and a run started with an input declaration file on disk
leaves that file untouched. -/
theorem pipeline_mutates_only_protocol_name_witness :
    ({ peerP with ProtocolName := "P" } : Peer).Asn = peerP.Asn ∧
      fsGet (resultFS (runMain false (.ok "G") cfgP [("/etc/wireframe.yml", "peers")]))
        "/etc/wireframe.yml" = fsGet [("/etc/wireframe.yml", "peers")] "/etc/wireframe.yml" :=
  ⟨(pipeline_mutates_only_protocol_name.1 "P" peerP
      { peerP with ProtocolName := "P" } (by decide)).1,
   pipeline_mutates_only_protocol_name.2 false (.ok "G") cfgP
     [("/etc/wireframe.yml", "peers")] "/etc/wireframe.yml" (by decide) (by decide)⟩

end Wireframe
